import Mathlib

/-!
Verification development for the banking-workflow-automation backend.

The Python sources under `backend/` are shallowly embedded below:
pure functions become Lean functions, Python floats are modelled as exact
rationals (`ℚ`), fallible code returns `Except`, and the mutable
`Application` record is threaded explicitly through the pipeline.
Host-language builtins used by the code (`str.split`, `str.strip`,
`float(...)`, `datetime.strptime`, tuple comparison, the fixed `re`
patterns of `rules_engine.py`) are modelled by the small helper functions
at the top of the file; each helper's doc comment names the builtin it
stands for.  Characters are treated as in the source: the SSN digit
conversions and the digit regexes are modelled over ASCII digits.
-/

set_option maxRecDepth 40000

namespace Bwa

/-- Prefix test used while scanning for a substring occurrence:
`leadsWith sep cs` is true when `sep` is an initial segment of `cs`. -/
def leadsWith : List Char → List Char → Bool
  | [], _ => true
  | _ :: _, [] => false
  | a :: as, b :: bs => a == b && leadsWith as bs

/-- Worker for `splitOnL`.  `splitRun sep cs skip acc` scans `cs` left to
right; `skip` counts characters still to be consumed as the tail of a
separator occurrence that has already been matched, and `acc` holds the
(reversed) characters of the part being assembled. -/
def splitRun (sep : List Char) : List Char → Nat → List Char → List (List Char)
  | [], _, acc => [acc.reverse]
  | _ :: cs, Nat.succ k, acc => splitRun sep cs k acc
  | c :: cs, 0, acc =>
    if leadsWith sep (c :: cs) then
      acc.reverse :: splitRun sep cs (sep.length - 1) []
    else
      splitRun sep cs 0 (c :: acc)

/-- Models Python's `str.split(sep)` for a non-empty separator: the parts
between leftmost non-overlapping occurrences of `sep`, as character
lists. -/
def splitOnL (sep cs : List Char) : List (List Char) := splitRun sep cs 0 []

/-- Models Python's substring containment `sep in s` (for non-empty
`sep`): true exactly when splitting on `sep` yields more than one part. -/
def hasSub (sep cs : List Char) : Bool := (splitOnL sep cs).length != 1

/-- Models Python's `str.strip()` (whitespace stripped from both ends). -/
def trimL (cs : List Char) : List Char :=
  ((cs.dropWhile Char.isWhitespace).reverse.dropWhile Char.isWhitespace).reverse

/-- True for a single-quote (codepoint 39) or double-quote (codepoint 34)
character. -/
def isQuoteChar (c : Char) : Bool := c == Char.ofNat 39 || c == Char.ofNat 34

/-- Models Python's `str.strip("'\"")`: quote characters stripped from
both ends. -/
def stripQuotes (cs : List Char) : List Char :=
  ((cs.dropWhile isQuoteChar).reverse.dropWhile isQuoteChar).reverse

/-- Decimal value of a run of ASCII digits. -/
def digitsVal (cs : List Char) : Nat := cs.foldl (fun n c => 10 * n + (c.toNat - 48)) 0

/-- Models Python's `float(s)` builtin on the grammar
`[ws] [sign] digits [. digits] [(e|E) [sign] digits] [ws]`, returning the
exact rational value, or `none` where `float` raises `ValueError`.
(The exotic `inf`/`nan`/underscore forms accepted by CPython are outside
the model; no string in this code base uses them.) -/
def pyFloatChars (cs0 : List Char) : Option ℚ :=
  let cs := trimL cs0
  let sgnCs : ℚ × List Char :=
    match cs with
    | '+' :: r => (1, r)
    | '-' :: r => (-1, r)
    | _ => (1, cs)
  let ipCs := sgnCs.2.span Char.isDigit
  let fpCs : List Char × List Char :=
    match ipCs.2 with
    | '.' :: r => r.span Char.isDigit
    | _ => ([], ipCs.2)
  if ipCs.1.isEmpty && fpCs.1.isEmpty then Option.none
  else
    let mant : ℚ :=
      sgnCs.1 * ((digitsVal ipCs.1 : ℚ) + (digitsVal fpCs.1 : ℚ) / (10 : ℚ) ^ fpCs.1.length)
    match fpCs.2 with
    | [] => some mant
    | e :: r =>
      if e == 'e' || e == 'E' then
        let esgnR : Int × List Char :=
          match r with
          | '+' :: r2 => (1, r2)
          | '-' :: r2 => (-1, r2)
          | _ => (1, r)
        let edCs := esgnR.2.span Char.isDigit
        if edCs.1.isEmpty || !edCs.2.isEmpty then Option.none
        else some (mant * (10 : ℚ) ^ (esgnR.1 * (digitsVal edCs.1 : Int)))
      else Option.none

/-- A Python value as it occurs in the rule-evaluation fact context:
an `int`, a `float`, a `bool`, a `str`, or `None`. -/
inductive Value where
  | int (z : Int)
  | float (q : ℚ)
  | bool (b : Bool)
  | str (s : String)
  | pynone
  deriving DecidableEq

/-- Models Python truthiness `bool(v)` for the values of `Value`. -/
def pyTruthy : Value → Bool
  | Value.int z => decide (z ≠ 0)
  | Value.float q => decide (q ≠ 0)
  | Value.bool b => b
  | Value.str s => decide (s.data ≠ [])
  | Value.pynone => false

/-- Models Python's `float(v)` conversion: numbers and bools convert,
strings are parsed (`ValueError` on failure becomes `none`), and `None`
raises `TypeError` (also `none`). -/
def valueToFloat : Value → Option ℚ
  | Value.int z => some (z : ℚ)
  | Value.float q => some q
  | Value.bool b => some (if b then 1 else 0)
  | Value.str s => pyFloatChars s.data
  | Value.pynone => Option.none

/-- Models an order comparison operand in Python (`v >= n` etc.):
numbers and bools are numeric, comparing a `str` or `None` against a
number raises `TypeError` (`none`). -/
def valueAsNum : Value → Option ℚ
  | Value.int z => some (z : ℚ)
  | Value.float q => some q
  | Value.bool b => some (if b then 1 else 0)
  | Value.str _ => Option.none
  | Value.pynone => Option.none

/-- Models Python's `str(v)`.  For `float` the source code only ever
applies `str` to string-valued facts, so the simple decimal rendering
used here is never consulted in the verified scenarios. -/
def pyStr : Value → String
  | Value.int z => toString z
  | Value.float q => if q.den = 1 then toString q.num ++ (".0") else toString q
  | Value.bool b => if b then ("True") else ("False")
  | Value.str s => s
  | Value.pynone => ("None")

/-- Models Python's `context.get(k)` / `k in context`:
first (only) binding of the key, if any. -/
def ctxFind (ctx : List (String × Value)) (k : String) : Option Value :=
  (ctx.find? (fun kv => kv.1 == k)).map (fun kv => kv.2)

/-- Projection of an `Except` to its success value (`none` on error);
used to state concrete evaluations without needing decidable equality on
`Except`. -/
def okValue {ε α : Type} : Except ε α → Option α
  | Except.ok a => some a
  | Except.error _ => Option.none

/-- A calendar date, as produced by a successful
`datetime.strptime(s, "%Y-%m-%d")`. -/
structure PyDate where
  year : Int
  month : Int
  day : Int
  deriving DecidableEq

/-- `models.ApplicationStatus`. -/
inductive ApplicationStatus where
  | draft
  | submitted
  | identity_verification
  | document_review
  | credit_check
  | compliance_review
  | manual_review
  | approved
  | rejected
  deriving DecidableEq

/-- `models.RiskLevel`. -/
inductive RiskLevel where
  | low
  | medium
  | high
  | critical
  deriving DecidableEq

/-- `models.AccountType`. -/
inductive AccountType where
  | personal_checking
  | personal_savings
  | business_checking
  | business_savings
  | minor_account
  deriving DecidableEq

/-- The `.value` string of each `models.AccountType` member. -/
def AccountType.value : AccountType → String
  | AccountType.personal_checking => "personal_checking"
  | AccountType.personal_savings => "personal_savings"
  | AccountType.business_checking => "business_checking"
  | AccountType.business_savings => "business_savings"
  | AccountType.minor_account => "minor_account"

/-- `models.PersonalInfo`, restricted to the fields the rules engine and
pipeline read.  `date_of_birth` is carried as the result of parsing the
submitted `"%Y-%m-%d"` string: `some d` for a parseable date and `none`
where `datetime.strptime` would raise. -/
structure PersonalInfo where
  first_name : String := ""
  last_name : String := ""
  email : String := ""
  phone : String := ""
  date_of_birth : Option PyDate
  ssn : String
  citizenship : String := "US"
  deriving DecidableEq

/-- `models.EmploymentInfo` (fields read by the engine). -/
structure EmploymentInfo where
  employer_name : Option String := Option.none
  occupation : Option String := Option.none
  annual_income : Option ℚ := Option.none
  employment_status : String := "employed"
  deriving DecidableEq

/-- `models.Integration` (fields read by the engine and pipeline);
`response_data` is the `Dict[str, Any]` payload, restricted to `Value`
entries, and the wall-clock `timestamp` is omitted. -/
structure Integration where
  integration_name : String
  request_id : String := ""
  status : String
  response_data : List (String × Value) := []
  processing_time_ms : Int := 0
  deriving DecidableEq

/-- `models.BusinessRule`. -/
structure BusinessRule where
  rule_id : String
  rule_name : String
  condition : String
  action : String
  priority : Int := 0
  enabled : Bool := true
  deriving DecidableEq

/-- `models.Application`, restricted to the fields the rules engine and
processing pipeline read or write.  Timestamps are `PyDate` options
(`none` = not yet set), matching how the pipeline only ever tests or
assigns them. -/
structure Application where
  application_id : String := ""
  account_type : AccountType
  status : ApplicationStatus := ApplicationStatus.draft
  risk_level : RiskLevel := RiskLevel.low
  personal_info : PersonalInfo
  employment_info : Option EmploymentInfo := Option.none
  integrations : List Integration := []
  rules_applied : List String := []
  submitted_at : Option PyDate := Option.none
  completed_at : Option PyDate := Option.none
  updated_at : Option PyDate := Option.none
  ai_fraud_score : ℚ := 0
  ai_confidence : ℚ := 0
  ai_notes : List String := []
  approval_decision : Option String := Option.none
  decision_reason : Option String := Option.none
  assigned_to : Option String := Option.none
  deriving DecidableEq

/-- `RulesEngine.calculate_age` (`rules_engine.py:78`): whole-year age at
`today`, with the tuple comparison `(today.month, today.day) <
(dob.month, dob.day)` of the source written out lexicographically; an
unparseable date of birth (`none`) gives the source's safe default 0. -/
def calculate_age (dob : Option PyDate) (today : PyDate) : Int :=
  match dob with
  | Option.none => 0
  | some d =>
    today.year - d.year -
      (if today.month < d.month ∨ (today.month = d.month ∧ today.day < d.day) then 1 else 0)

/-- The cleaned SSN of `RulesEngine.is_ssn_suspicious`
(`ssn.replace("-", "").replace(" ", "")`). -/
def ssnCleanChars (ssn : String) : List Char :=
  ssn.data.filter (fun c => !(c == '-' || c == ' '))

/-- The sequential-step counter of `is_ssn_suspicious`: the number of
indices `i` with `digits[i+1] == digits[i] + 1`. -/
def countStep : List Nat → Nat
  | a :: b :: rest => (if b == a + 1 then 1 else 0) + countStep (b :: rest)
  | _ => 0

/-- Models the repetitive-pattern test of `is_ssn_suspicious`:
`re.match(r'^(\d)\1{8}$', s)` or `re.match(r'^(\d{3})\1{2}$', s)`
(nine digits, all identical, or a three-digit block repeated three
times); ASCII digits. -/
def repMatch (cs : List Char) : Bool :=
  match cs with
  | [a, b, c, d, e, f, g, h, i] =>
    (List.all [a, b, c, d, e, f, g, h, i] Char.isDigit) &&
      ((b == a && c == a && d == a && e == a && f == a && g == a && h == a && i == a) ||
        (d == a && e == b && f == c && g == a && h == b && i == c))
  | _ => false

/-- `RulesEngine.is_ssn_suspicious` (`rules_engine.py:90`): returns
`(sequential, repetitive)`.  When the cleaned SSN has exactly 9
characters the source runs `int(d)` over every character, which raises
`ValueError` (modelled as `Except.error ()`) if any of them is not a
digit; the repetitive regexes are only reached after that loop. -/
def is_ssn_suspicious (ssn : String) : Except Unit (Bool × Bool) :=
  let clean := ssnCleanChars ssn
  if clean.length == 9 then
    if clean.all Char.isDigit then
      let digits := clean.map (fun c => c.toNat - 48)
      Except.ok (decide (5 ≤ countStep digits), repMatch clean)
    else Except.error ()
  else Except.ok (false, repMatch clean)

/-- The characters rejected by `_evaluate_condition`
(`rules_engine.py:174`): semicolon, parentheses, square and curly
brackets, backslash, backtick, dollar. -/
def dangerousChars : List Char :=
  [Char.ofNat 59, Char.ofNat 40, Char.ofNat 41, Char.ofNat 91, Char.ofNat 93,
    Char.ofNat 123, Char.ofNat 125, Char.ofNat 92, Char.ofNat 96, Char.ofNat 36]

/-- The `"<"`/`">"` comparison block of `_evaluate_condition`
(`rules_engine.py:180-214`): returns `some result` when the split on the
operator has exactly two parts (every path of the source block then
returns), and `none` when the block falls through (`len(parts) != 2`).
A missing fact, an unparseable right-hand side, and a `float(left_val)`
failure all return `False` inside the source's `try`/`except`. -/
def compareClause (ctx : List (String × Value)) (op : Char) (isLt : Bool)
    (cs : List Char) : Option Bool :=
  match splitOnL [op] cs with
  | [l, r] =>
    let left := String.mk (trimL l)
    let right := trimL r
    match ctxFind ctx left with
    | Option.none => some false
    | some lv =>
      match pyFloatChars right with
      | Option.none => some false
      | some rv =>
        match valueToFloat lv with
        | Option.none => some false
        | some lf => some (if isLt then decide (lf < rv) else decide (rv < lf))
  | _ => Option.none

/-- The `"!="` block of `_evaluate_condition` (`rules_engine.py:226-233`):
`some result` when the split has exactly two parts, `none` otherwise
(including when `"!="` does not occur).  The right side is stripped of
quotes, the left side must be a known fact (else `False`), and the
comparison is on `str(value)`. -/
def neClause (ctx : List (String × Value)) (cs : List Char) : Option Bool :=
  match splitOnL [Char.ofNat 33, Char.ofNat 61] cs with
  | [l, r] =>
    let left := String.mk (trimL l)
    let right := String.mk (stripQuotes (trimL r))
    match ctxFind ctx left with
    | some v => some (decide (pyStr v ≠ right))
    | Option.none => some false
  | _ => Option.none

/-- Separator `" and "`. -/
def andSep : List Char := [' ', 'a', 'n', 'd', ' ']

/-- Separator `" or "`. -/
def orSep : List Char := [' ', 'o', 'r', ' ']

/-- The string `"=="`. -/
def eqMarker : List Char := ['=', '=']

/-- The string `".startswith("`. -/
def swMarker : List Char :=
  ['.', 's', 't', 'a', 'r', 't', 's', 'w', 'i', 't', 'h', Char.ofNat 40]

/-- Fuel-indexed body of `RulesEngine._evaluate_condition`
(`rules_engine.py:165-253`), checked in the source's order: length cap,
dangerous characters, the `<` block (only when `<` occurs and `>` does
not), the `>` block, `" and "` conjunction, `" or "` disjunction, the
`"!="` block, the unsupported `"=="`/`".startswith("` placeholders
(always false), and finally the bare boolean fact lookup.  The recursion
in the `and`/`or` branches is on strictly shorter strings (each part
omits at least one separator), so the fuel used by `evalCondition` is
never exhausted; fuel 0 is an unreachable default. -/
def evalCoreF (ctx : List (String × Value)) : Nat → List Char → Bool
  | 0, _ => false
  | n + 1, cs =>
    if 500 < cs.length then false
    else if cs.any (fun c => dangerousChars.contains c) then false
    else
      match (if cs.contains '<' && !cs.contains '>' then compareClause ctx '<' true cs else Option.none) with
      | some b => b
      | Option.none =>
        match (if cs.contains '>' && !cs.contains '<' then compareClause ctx '>' false cs else Option.none) with
        | some b => b
        | Option.none =>
          if hasSub andSep cs then
            (splitOnL andSep cs).all (fun c => evalCoreF ctx n (trimL c))
          else if hasSub orSep cs then
            (splitOnL orSep cs).any (fun c => evalCoreF ctx n (trimL c))
          else
            match neClause ctx cs with
            | some b => b
            | Option.none =>
              if hasSub eqMarker cs || hasSub swMarker cs then false
              else
                match ctxFind ctx (String.mk (trimL cs)) with
                | some v => pyTruthy v
                | Option.none => false

/-- `RulesEngine._evaluate_condition`: the fuel `length + 1` dominates the
recursion depth (every recursive call consumes a separator of length at
least 4). -/
def evalCondition (cond : String) (ctx : List (String × Value)) : Bool :=
  evalCoreF ctx (cond.data.length + 1) cond.data

/-- The employment-income contribution of `_calculate_risk_score`
(`rules_engine.py:274-278`).  The guard
`if application.employment_info and application.employment_info.annual_income:`
uses Python truthiness, so a missing employment record, a missing income
and an income of exactly 0 all contribute nothing. -/
def income_contribution (e : Option EmploymentInfo) : ℚ :=
  match e with
  | some ei =>
    match ei.annual_income with
    | some inc =>
      if inc ≠ 0 then (if 500000 < inc then 10 else if inc < 15000 then 15 else 0) else 0
    | Option.none => 0
  | Option.none => 0

/-- `RulesEngine._calculate_risk_score` (`rules_engine.py:255-285`):
AI fraud score × 40, age bracket, citizenship, employment income, SSN
patterns, capped at 100.  Propagates the `ValueError` that
`is_ssn_suspicious` can raise. -/
def calculate_risk_score (app : Application) (today : PyDate) : Except Unit ℚ := do
  let s1 : ℚ := 0 + app.ai_fraud_score * 40
  let age := calculate_age app.personal_info.date_of_birth today
  let s2 := if age < 21 then s1 + 10 else if 75 < age then s1 + 15 else s1
  let s3 := if app.personal_info.citizenship ≠ ("US" : String) then s2 + 20 else s2
  let s4 := s3 + income_contribution app.employment_info
  let sr ← is_ssn_suspicious app.personal_info.ssn
  let s5 := if sr.1 || sr.2 then s4 + 30 else s4
  return min s5 100

/-- `RulesEngine._load_default_rules` (`rules_engine.py:17-76`). -/
def default_rules : List BusinessRule :=
  [{ rule_id := "AGE_VERIFICATION",
     rule_name := "Age Verification for Account Type",
     condition := "age < 18 and account_type != 'minor_account'",
     action := "require_cosigner",
     priority := 100 },
   { rule_id := "HIGH_RISK_SSN",
     rule_name := "High Risk SSN Pattern Detection",
     condition := "ssn_sequential or ssn_repetitive",
     action := "flag_manual_review",
     priority := 90 },
   { rule_id := "HIGH_INCOME_VERIFICATION",
     rule_name := "High Income Requires Additional Verification",
     condition := "annual_income > 250000",
     action := "require_income_documentation",
     priority := 80 },
   { rule_id := "BUSINESS_ACCOUNT_EIN",
     rule_name := "Business Account Requires EIN",
     condition := "account_type.startswith('business') and not ein_provided",
     action := "require_ein",
     priority := 95 },
   { rule_id := "FOREIGN_ADDRESS",
     rule_name := "Foreign Address Enhanced Due Diligence",
     condition := "citizenship != 'US' or foreign_address",
     action := "enhanced_kyc",
     priority := 85 },
   { rule_id := "CREDIT_CHECK_THRESHOLD",
     rule_name := "Credit Check for Overdraft Protection",
     condition := "overdraft_requested",
     action := "require_credit_check",
     priority := 70 },
   { rule_id := "AUTO_APPROVE_LOW_RISK",
     rule_name := "Auto-Approve Low Risk Applications",
     condition := "risk_score < 20 and all_verifications_passed",
     action := "auto_approve",
     priority := 50 },
   { rule_id := "SUSPICIOUS_PATTERN",
     rule_name := "Suspicious Pattern Detection",
     condition := "ai_fraud_score > 0.7",
     action := "flag_fraud_review",
     priority := 100 }]

/-- Insert a rule into a descending-priority list, before the first rule
of equal or lower priority (so that, used right to left over the input,
equal priorities keep their original order). -/
def insertDesc (r : BusinessRule) : List BusinessRule → List BusinessRule
  | [] => [r]
  | x :: xs => if x.priority ≤ r.priority then r :: x :: xs else x :: insertDesc r xs

/-- Models `sorted(self.rules, key=lambda r: r.priority, reverse=True)`
(`rules_engine.py:142`): Python's `sorted` is stable, so equal-priority
rules keep their insertion order. -/
def sortRulesDesc : List BusinessRule → List BusinessRule
  | [] => []
  | r :: rs => insertDesc r (sortRulesDesc rs)

/-- The rule loop of `evaluate_application` (`rules_engine.py:142-148`):
skip disabled rules, evaluate each condition against the context, and
collect `(triggered_rules, actions_required)` in visiting order. -/
def evalLoop (ctx : List (String × Value)) : List BusinessRule → List String × List String
  | [] => ([], [])
  | r :: rs =>
    let rest := evalLoop ctx rs
    if r.enabled && evalCondition r.condition ctx then
      (r.rule_id :: rest.1, r.action :: rest.2)
    else rest

/-- The fact context built by `evaluate_application`
(`rules_engine.py:123-136`), given the already-derived age, SSN flags and
risk score.  `annual_income` is the employment income when an employment
record exists (possibly `None`), else the int 0; `ein_provided` and
`overdraft_requested` are the source's hard-coded `False`;
`all_verifications_passed` is `len(application.integrations) > 0`. -/
def build_context (app : Application) (age : Int) (seq rep : Bool) (risk : ℚ) :
    List (String × Value) :=
  [("age", Value.int age),
   ("ssn_sequential", Value.bool seq),
   ("ssn_repetitive", Value.bool rep),
   ("annual_income",
     match app.employment_info with
     | some e =>
       match e.annual_income with
       | some q => Value.float q
       | Option.none => Value.pynone
     | Option.none => Value.int 0),
   ("citizenship", Value.str app.personal_info.citizenship),
   ("account_type", Value.str app.account_type.value),
   ("foreign_address", Value.bool (decide (app.personal_info.citizenship ≠ ("US" : String)))),
   ("ein_provided", Value.bool false),
   ("overdraft_requested", Value.bool false),
   ("ai_fraud_score", Value.float app.ai_fraud_score),
   ("risk_score", Value.float risk),
   ("all_verifications_passed", Value.bool (decide (0 < app.integrations.length)))]

/-- `RulesEngine._determine_risk_level` (`rules_engine.py:287-298`):
first match wins on `context.get("risk_score", 0)` and the triggered-rule
list.  A non-numeric `risk_score` value would make the `>=` comparison
raise `TypeError` (modelled as `Except.error ()`); inside the engine the
fact is always a float. -/
def determine_risk_level (context : List (String × Value)) (triggered : List String) :
    Except Unit RiskLevel :=
  match valueAsNum ((ctxFind context ("risk_score")).getD (Value.int 0)) with
  | Option.none => Except.error ()
  | some s =>
    Except.ok
      (if 70 ≤ s ∨ triggered.contains ("SUSPICIOUS_PATTERN") = true then RiskLevel.critical
       else if 50 ≤ s ∨ triggered.contains ("HIGH_RISK_SSN") = true then RiskLevel.high
       else if 30 ≤ s ∨ 3 ≤ triggered.length then RiskLevel.medium
       else RiskLevel.low)

/-- `RulesEngine._determine_next_action` (`rules_engine.py:300-319`). -/
def determine_next_action (actions : List String) : String :=
  if actions.isEmpty then "proceed_to_next_step"
  else if actions.contains ("flag_fraud_review") then "manual_fraud_review"
  else if actions.contains ("flag_manual_review") then "manual_review"
  else if actions.contains ("enhanced_kyc") then "enhanced_kyc_check"
  else if actions.contains ("require_credit_check") then "credit_check"
  else if actions.contains ("require_cosigner") then "require_cosigner_info"
  else if actions.contains ("auto_approve") then "auto_approve"
  else "proceed_to_next_step"

/-- The result dictionary of `RulesEngine.evaluate_application`
(`rules_engine.py:156-163`). -/
structure EvalResult where
  triggered_rules : List String
  actions_required : List String
  risk_level : RiskLevel
  next_action : String
  context : List (String × Value)
  can_auto_approve : Bool
  deriving DecidableEq

/-- `RulesEngine.evaluate_application` (`rules_engine.py:111-163`) over an
explicit rule list (`self.rules`) and evaluation date (`datetime.now()`).
Derives age and SSN flags, computes the risk score, builds the fact
context, runs the rules in stable descending priority order, and returns
the result record; the `ValueError` that `is_ssn_suspicious` can raise
propagates (the source has no handler here). -/
def evaluate_application (rules : List BusinessRule) (app : Application) (today : PyDate) :
    Except Unit EvalResult := do
  let age := calculate_age app.personal_info.date_of_birth today
  let sr ← is_ssn_suspicious app.personal_info.ssn
  let risk ← calculate_risk_score app today
  let context := build_context app age sr.1 sr.2 risk
  let ta := evalLoop context (sortRulesDesc rules)
  let risk_level ← determine_risk_level context ta.1
  return { triggered_rules := ta.1,
           actions_required := ta.2,
           risk_level := risk_level,
           next_action := determine_next_action ta.2,
           context := context,
           can_auto_approve := ta.2.contains ("auto_approve") && ta.2.length == 1 }

/-- Models Python's substring test `needle in haystack` on strings. -/
def hasSubStr (needle hay : String) : Bool := hasSub needle.data hay.data

/-- Models `integration.response_data.get("credit_score", 0)`. -/
def respGet (i : Integration) (k : String) : Value :=
  (ctxFind i.response_data k).getD (Value.int 0)

/-- Step 3 of `process_application` (`app.py:444-472`): choose the
outcome from the rules result, the application's (just-updated) risk
level, and the credit-check integration used on the residual path.
The `>=` comparison of a non-numeric `credit_score` payload would raise
`TypeError`, caught only at the pipeline boundary; the error value
carries the application state at the raise point (the credit integration
is appended before the comparison) together with the note the matching
handler would append. -/
def decide_outcome (app : Application) (rr : EvalResult) (credit : Integration) :
    Except (Application × String) Application :=
  if rr.can_auto_approve then
    Except.ok
      { app with
        status := ApplicationStatus.approved
        approval_decision := some ("approved")
        decision_reason := some ("Auto-approved - low risk, all verifications passed") }
  else if hasSubStr ("manual_review") rr.next_action || hasSubStr ("fraud_review") rr.next_action then
    Except.ok
      { app with
        status := ApplicationStatus.manual_review
        assigned_to :=
          some (if hasSubStr ("fraud") rr.next_action then "fraud_team" else "review_team") }
  else if app.risk_level = RiskLevel.high ∨ app.risk_level = RiskLevel.critical then
    Except.ok
      { app with
        status := ApplicationStatus.manual_review
        assigned_to := some ("senior_reviewer") }
  else
    let app2 := { app with integrations := app.integrations ++ [credit] }
    match valueAsNum (respGet credit ("credit_score")) with
    | Option.none => Except.error (app2, "System error - requires manual review")
    | some sc =>
      if 650 ≤ sc then
        Except.ok
          { app2 with
            status := ApplicationStatus.approved
            approval_decision := some ("approved")
            decision_reason := some ("Approved after credit check") }
      else
        Except.ok
          { app2 with
            status := ApplicationStatus.manual_review
            decision_reason := some ("Credit score below threshold") }

/-- The `try` body of `process_application` (`app.py:404-478`) for a
found application: standard-check integrations `std` and the residual
credit check `credit` stand for the awaited orchestrator results; `now`
stands for `datetime.now()`.  On success the returned state carries
`completed_at`/`updated_at := now`; on a raise the error carries the
in-place-mutated application state at the raise point and the note of
the handler that catches it. -/
def run_pipeline (rules : List BusinessRule) (app : Application) (std : List Integration)
    (credit : Integration) (now : PyDate) : Except (Application × String) Application :=
  let app1 := { app with status := ApplicationStatus.identity_verification }
  let app2 := { app1 with integrations := app1.integrations ++ std }
  let app3 := { app2 with status := ApplicationStatus.compliance_review }
  match evaluate_application rules app3 now with
  | Except.error _ => Except.error (app3, "Processing error - requires manual review")
  | Except.ok rr =>
    let app4 := { app3 with risk_level := rr.risk_level, rules_applied := rr.triggered_rules }
    match decide_outcome app4 rr credit with
    | Except.error e => Except.error e
    | Except.ok app5 => Except.ok { app5 with completed_at := some now, updated_at := some now }

/-- `process_application` (`app.py:394-494`) as a state transformer on
the stored application record: `none` input models the
application-not-found early return (no state change); otherwise the run
body executes and any raise is caught once at the pipeline boundary,
forcing `MANUAL_REVIEW` and appending the handler's generic note.
(The per-application lock and the lock-registry cleanup in `finally` are
concurrency machinery with no effect on the stored record.) -/
def process_application (rules : List BusinessRule) (app? : Option Application)
    (std : List Integration) (credit : Integration) (now : PyDate) : Option Application :=
  match app? with
  | Option.none => Option.none
  | some app =>
    match run_pipeline rules app std credit now with
    | Except.ok fin => some fin
    | Except.error en =>
      some
        { en.1 with
          status := ApplicationStatus.manual_review
          ai_notes := en.1.ai_notes ++ [en.2] }

/-- Modelled from the claim text of C5: the risk-level mapping as a pure
function of the score and the triggered-rule list, first match wins. -/
def risk_level_claim (s : ℚ) (triggered : List String) : RiskLevel :=
  if 70 ≤ s ∨ triggered.contains ("SUSPICIOUS_PATTERN") = true then RiskLevel.critical
  else if 50 ≤ s ∨ triggered.contains ("HIGH_RISK_SSN") = true then RiskLevel.high
  else if 30 ≤ s ∨ 3 ≤ triggered.length then RiskLevel.medium
  else RiskLevel.low

/-- Modelled from the claim text of C7: sequential means the cleaned SSN
is 9 digits and at least 5 of its 8 consecutive digit pairs are each
exactly +1 over the previous digit. -/
def sequential_claim (ssn : String) : Bool :=
  let clean := ssnCleanChars ssn
  decide (clean.length = 9 ∧ clean.all Char.isDigit = true ∧
    5 ≤ countStep (clean.map (fun c => c.toNat - 48)))

/-- Modelled from the claim text of C7: repetitive means all 9 digits
identical or three repetitions of the same 3-digit block. -/
def repetitive_claim (ssn : String) : Bool := repMatch (ssnCleanChars ssn)

/-- Modelled from the claim text of C2: the capped additive risk score
with the income factor as the claim words it (`+15` whenever the income
is below 15,000, with no nonzero proviso). -/
def risk_score_claim (app : Application) (today : PyDate) : ℚ :=
  min 100
    (app.ai_fraud_score * 40
      + (if calculate_age app.personal_info.date_of_birth today < 21 then 10
         else if 75 < calculate_age app.personal_info.date_of_birth today then 15 else 0)
      + (if app.personal_info.citizenship ≠ ("US" : String) then 20 else 0)
      + (match app.employment_info with
         | some e =>
           match e.annual_income with
           | some inc => if 500000 < inc then (10 : ℚ) else if inc < 15000 then 15 else 0
           | Option.none => 0
         | Option.none => 0)
      + (if sequential_claim app.personal_info.ssn || repetitive_claim app.personal_info.ssn
         then 30 else 0))

/-- The evaluation date used by the concrete scenarios. -/
def today0 : PyDate := { year := 2026, month := 10, day := 12 }

/-- Personal data of the concrete scenario applicant: born 2010-01-01
(age 16 at `today0`), an unremarkable SSN, US citizenship. -/
def pi0 : PersonalInfo :=
  { date_of_birth := some { year := 2010, month := 1, day := 1 },
    ssn := "587-10-3924",
    citizenship := "US" }

/-- A 16-year-old applicant for a personal checking account with no
employment record, no integrations and AI fraud score 0. -/
def app0 : Application := { account_type := AccountType.personal_checking, personal_info := pi0 }

/-- `app0` with an employment record whose annual income is exactly 0. -/
def appZ : Application := { app0 with employment_info := some { annual_income := some 0 } }

/-- `app0` with an SSN whose cleaned form has 9 characters but contains
non-digits, so `int(d)` raises inside `is_ssn_suspicious`. -/
def appBad : Application := { app0 with personal_info := { pi0 with ssn := "ABCDEFGHI" } }

/-- A failed identity-verification integration record. -/
def failedIdv : Integration := { integration_name := "identity_verification", status := "failed" }

/-- A failed fraud-database integration record. -/
def failedFrd : Integration := { integration_name := "fraud_database", status := "failed" }

/-- `app0` with two attached integrations, both with status `failed`. -/
def appF : Application := { app0 with integrations := [failedIdv, failedFrd] }

/-- A successful mock credit check with score 700. -/
def credit0 : Integration :=
  { integration_name := "credit_check", status := "success",
    response_data := [("credit_score", Value.int 700)] }

/-- A rules result whose single triggered action is the auto-approval
action (used to exercise the auto-approve branch of the outcome step). -/
def rrAuto : EvalResult :=
  { triggered_rules := ["AUTO_APPROVE_LOW_RISK"],
    actions_required := ["auto_approve"],
    risk_level := RiskLevel.low,
    next_action := "auto_approve",
    context := [],
    can_auto_approve := true }

/-- The fact context `evaluate_application` derives for `app0` at
`today0`: age 16, clean SSN, risk score 10. -/
def ctx0 : List (String × Value) := build_context app0 16 false false 10

/-- The full rules result for `app0` at `today0`: no rule triggers. -/
def r0app0 : EvalResult :=
  { triggered_rules := [],
    actions_required := [],
    risk_level := RiskLevel.low,
    next_action := "proceed_to_next_step",
    context := ctx0,
    can_auto_approve := false }

/-- A rules result with no triggered action (residual credit-check
path). -/
def rrLow : EvalResult :=
  { triggered_rules := [],
    actions_required := [],
    risk_level := RiskLevel.low,
    next_action := "proceed_to_next_step",
    context := [],
    can_auto_approve := false }

/-- The outcome of the residual credit-check path for `app0` with
`credit0` (score 700 ≥ 650). -/
def outM : Application :=
  { app0 with
    integrations := app0.integrations ++ [credit0]
    status := ApplicationStatus.approved
    approval_decision := some ("approved")
    decision_reason := some ("Approved after credit check") }

/-- A non-US applicant with a high (but in-range) income: two default
rules trigger (`FOREIGN_ADDRESS` and `HIGH_INCOME_VERIFICATION`). -/
def appM : Application :=
  { app0 with
    personal_info := { pi0 with citizenship := "CA" }
    employment_info := some { annual_income := some 300000 } }

/-- The full rules result for `appM` at `today0`: risk score 30 (age 10 +
non-US 20), two triggered rules in priority order. -/
def r2appM : EvalResult :=
  { triggered_rules := ["FOREIGN_ADDRESS", "HIGH_INCOME_VERIFICATION"],
    actions_required := ["enhanced_kyc", "require_income_documentation"],
    risk_level := RiskLevel.medium,
    next_action := "enhanced_kyc_check",
    context := build_context appM 16 false false 30,
    can_auto_approve := false }

/-! ## General lemmas about the embedding -/

/-- `okValue` inverts `Except.ok`. -/
theorem okValue_some {ε α : Type} {x : Except ε α} {a : α} :
    okValue x = some a ↔ x = Except.ok a := by
  cases x <;> simp [okValue]

/-- The rule loop returns exactly the ids and actions of the enabled
rules whose condition holds, in list order. -/
theorem evalLoop_eq (ctx : List (String × Value)) (l : List BusinessRule) :
    evalLoop ctx l =
      ((l.filter (fun x => x.enabled && evalCondition x.condition ctx)).map (fun x => x.rule_id),
       (l.filter (fun x => x.enabled && evalCondition x.condition ctx)).map (fun x => x.action)) := by
  induction l with
  | nil => rfl
  | cons r rs ih =>
    simp only [evalLoop, ih, List.filter]
    by_cases h : (r.enabled && evalCondition r.condition ctx) = true
    · simp [h]
    · simp [h]

/-- Membership in an insertion. -/
theorem mem_insertDesc {a r : BusinessRule} {l : List BusinessRule} :
    a ∈ insertDesc r l ↔ a = r ∨ a ∈ l := by
  induction l with
  | nil => simp [insertDesc]
  | cons x xs ih =>
    simp only [insertDesc]
    by_cases h : x.priority ≤ r.priority
    · simp [h, List.mem_cons]
    · simp only [h, if_false, List.mem_cons, ih]
      tauto

/-- Insertion preserves the descending-priority invariant. -/
theorem insertDesc_pairwise {r : BusinessRule} {l : List BusinessRule}
    (hl : List.Pairwise (fun a b => b.priority ≤ a.priority) l) :
    List.Pairwise (fun a b => b.priority ≤ a.priority) (insertDesc r l) := by
  induction l with
  | nil => simp [insertDesc]
  | cons x xs ih =>
    rcases hl with _ | ⟨hx, hxs⟩
    simp only [insertDesc]
    by_cases h : x.priority ≤ r.priority
    · rw [if_pos h]
      exact List.Pairwise.cons
        (by
          intro y hy
          rcases List.mem_cons.mp hy with rfl | hy'
          · exact h
          · exact le_trans (hx y hy') h)
        (List.Pairwise.cons hx hxs)
    · rw [if_neg h]
      exact List.Pairwise.cons
        (by
          intro y hy
          rcases mem_insertDesc.mp hy with rfl | hy'
          · exact le_of_not_le h
          · exact hx y hy')
        (ih hxs)

/-- The sorted rule list is descending in priority. -/
theorem sortRulesDesc_pairwise (l : List BusinessRule) :
    List.Pairwise (fun a b => b.priority ≤ a.priority) (sortRulesDesc l) := by
  induction l with
  | nil => exact List.Pairwise.nil
  | cons r rs ih => exact insertDesc_pairwise ih

/-- Filtering one priority class through an insertion: the inserted rule
lands in front of its own class and the rest is untouched. -/
theorem filter_insertDesc (p : Int) (r : BusinessRule) (l : List BusinessRule) :
    (insertDesc r l).filter (fun x => x.priority == p) =
      if r.priority == p then r :: l.filter (fun x => x.priority == p)
      else l.filter (fun x => x.priority == p) := by
  induction l with
  | nil =>
    by_cases hr : (r.priority == p) = true
    · simp [insertDesc, List.filter_cons, hr]
    · simp [insertDesc, List.filter_cons, hr]
  | cons x xs ih =>
    by_cases h : x.priority ≤ r.priority
    · by_cases hr : (r.priority == p) = true
      · simp [insertDesc, h, List.filter_cons, hr]
      · simp [insertDesc, h, List.filter_cons, hr]
    · have hgt : r.priority < x.priority := lt_of_not_ge h
      by_cases hr : (r.priority == p) = true
      · have hrp : r.priority = p := by simpa using hr
        have hx : (x.priority == p) = false := beq_eq_false_iff_ne.mpr (by omega)
        simp [insertDesc, h, List.filter_cons, hx, ih, hr]
      · simp [insertDesc, h, List.filter_cons, ih, hr]

/-- Stability of the sort: every priority class comes out in its original
insertion order (this and `sortRulesDesc_pairwise` characterise Python's
stable `sorted(..., reverse=True)`). -/
theorem sortRulesDesc_filter (l : List BusinessRule) (p : Int) :
    (sortRulesDesc l).filter (fun x => x.priority == p) = l.filter (fun x => x.priority == p) := by
  induction l with
  | nil => rfl
  | cons r rs ih =>
    by_cases hr : (r.priority == p) = true
    · simp [sortRulesDesc, filter_insertDesc, ih, List.filter_cons, hr]
    · simp [sortRulesDesc, filter_insertDesc, ih, List.filter_cons, hr]

/-- A list contains `a` and has length 1 exactly when it is `[a]`. -/
theorem contains_singleton (l : List String) (a : String) :
    (l.contains a && l.length == 1) = true ↔ l = [a] := by
  constructor
  · intro h
    have hc := (Bool.and_eq_true _ _).mp h
    have hmem : a ∈ l := List.elem_iff.mp hc.1
    have hlen : l.length = 1 := by simpa using hc.2
    rcases List.length_eq_one.mp hlen with ⟨b, rfl⟩
    rcases List.mem_singleton.mp hmem with rfl
    rfl
  · intro h
    subst h
    simp [List.contains]

/-- Shape of a successful `evaluate_application` result: the triggered
ids and actions come from the rule loop over the stably-sorted rules and
the returned context, and `can_auto_approve` is the source's
`"auto_approve" in actions_required and len(actions_required) == 1`. -/
theorem eval_ok_fields (rules : List BusinessRule) (app : Application) (today : PyDate)
    (r : EvalResult) (h : evaluate_application rules app today = Except.ok r) :
    r.triggered_rules = (evalLoop r.context (sortRulesDesc rules)).1 ∧
    r.actions_required = (evalLoop r.context (sortRulesDesc rules)).2 ∧
    r.can_auto_approve =
      (r.actions_required.contains ("auto_approve") && r.actions_required.length == 1) := by
  cases hs : is_ssn_suspicious app.personal_info.ssn with
  | error e => simp [evaluate_application, hs, Bind.bind, Except.bind] at h
  | ok sr =>
    cases hk : calculate_risk_score app today with
    | error e => simp [evaluate_application, hs, hk, Bind.bind, Except.bind] at h
    | ok risk =>
      cases hl : determine_risk_level
          (build_context app (calculate_age app.personal_info.date_of_birth today) sr.1 sr.2 risk)
          (evalLoop (build_context app (calculate_age app.personal_info.date_of_birth today)
            sr.1 sr.2 risk) (sortRulesDesc rules)).1 with
      | error e =>
        simp [evaluate_application, hs, hk, hl, Bind.bind, Except.bind] at h
      | ok lvl =>
        simp only [evaluate_application, hs, hk, hl, Bind.bind, Except.bind, pure,
          Except.pure, Except.ok.injEq] at h
        subst h
        simp

/-- The outcome step only raises from the residual credit branch, after
appending the credit integration; it never touches `completed_at`. -/
theorem decide_outcome_error_state (app : Application) (rr : EvalResult) (credit : Integration)
    (en : Application × String) (h : decide_outcome app rr credit = Except.error en) :
    en.1.completed_at = app.completed_at := by
  unfold decide_outcome at h
  split at h
  · simp at h
  · split at h
    · simp at h
    · split at h
      · simp at h
      · split at h
        · simp only [Except.error.injEq] at h
          subst h
          rfl
        · split at h <;> simp at h

/-- A run that reaches the end of the `try` body records the completion
time. -/
theorem run_pipeline_ok_completed (rules : List BusinessRule) (app : Application)
    (std : List Integration) (credit : Integration) (now : PyDate) (fin : Application)
    (h : run_pipeline rules app std credit now = Except.ok fin) :
    fin.completed_at = some now := by
  simp only [run_pipeline] at h
  split at h
  · simp at h
  · split at h
    · simp at h
    · simp only [Except.ok.injEq] at h
      subst h
      rfl

/-- A run that raises leaves `completed_at` exactly as it was when the
run started. -/
theorem run_pipeline_error_state (rules : List BusinessRule) (app : Application)
    (std : List Integration) (credit : Integration) (now : PyDate) (en : Application × String)
    (h : run_pipeline rules app std credit now = Except.error en) :
    en.1.completed_at = app.completed_at := by
  simp only [run_pipeline] at h
  split at h
  · simp only [Except.error.injEq] at h
    subst h
    rfl
  · split at h
    · rename_i rr hev app5 hdo
      have hst := decide_outcome_error_state _ _ _ _ hdo
      simp only [Except.error.injEq] at h
      subst h
      exact hst
    · simp at h

/-- A matched separator fits inside the scanned list. -/
theorem leadsWith_length {sep cs : List Char} (h : leadsWith sep cs = true) :
    sep.length ≤ cs.length := by
  induction sep generalizing cs with
  | nil => simp
  | cons a as ih =>
    cases cs with
    | nil => simp [leadsWith] at h
    | cons b bs =>
      simp only [leadsWith, Bool.and_eq_true] at h
      simpa using ih h.2

/-- The split worker always emits at least one part. -/
theorem splitRun_ne_nil (sep : List Char) (cs : List Char) (skip : Nat) (acc : List Char) :
    splitRun sep cs skip acc ≠ [] := by
  induction cs generalizing skip acc with
  | nil => simp [splitRun]
  | cons c cs ih =>
    cases skip with
    | succ k => exact ih k acc
    | zero =>
      simp only [splitRun]
      split
      · simp
      · exact ih 0 (c :: acc)

/-- Material bound for the split worker: every part fits in the
accumulator plus the unscanned characters beyond the skip. -/
theorem splitRun_part_len (sep : List Char) :
    ∀ (cs : List Char) (skip : Nat) (acc : List Char), skip ≤ cs.length →
      ∀ p ∈ splitRun sep cs skip acc, p.length + skip ≤ acc.length + cs.length := by
  intro cs
  induction cs with
  | nil =>
    intro skip acc hsk p hp
    simp only [splitRun, List.mem_singleton] at hp
    subst hp
    simp at hsk
    simp [hsk]
  | cons c cs ih =>
    intro skip acc hsk p hp
    cases skip with
    | succ k =>
      have := ih k acc (by simpa using hsk) p hp
      simp only [List.length_cons]
      omega
    | zero =>
      simp only [splitRun] at hp
      split at hp
      · rename_i hmatch
        rcases List.mem_cons.mp hp with rfl | hp'
        · simp only [List.length_reverse, List.length_cons]
          omega
        · have hlen : sep.length ≤ cs.length + 1 := by
            simpa using leadsWith_length hmatch
          have := ih (sep.length - 1) [] (by omega) p hp'
          simp only [List.length_nil] at this
          simp only [List.length_cons]
          omega
      · have := ih 0 (c :: acc) (by omega) p hp
        simp only [List.length_cons] at this ⊢
        omega

/-- When the split has at least two parts, every part leaves room for
one separator occurrence. -/
theorem splitRun_two_parts_len (sep : List Char) :
    ∀ (cs : List Char) (skip : Nat) (acc : List Char), skip ≤ cs.length →
      2 ≤ (splitRun sep cs skip acc).length →
      ∀ p ∈ splitRun sep cs skip acc, p.length + sep.length ≤ acc.length + cs.length + skip := by
  intro cs
  induction cs with
  | nil =>
    intro skip acc hsk h2
    simp [splitRun] at h2
  | cons c cs ih =>
    intro skip acc hsk h2 p hp
    cases skip with
    | succ k =>
      have := ih k acc (by simpa using hsk) h2 p hp
      simp only [List.length_cons]
      omega
    | zero =>
      by_cases hmatch : leadsWith sep (c :: cs) = true
      · simp only [splitRun, hmatch, if_true] at hp
        have hlen : sep.length ≤ cs.length + 1 := by
          simpa using leadsWith_length hmatch
        rcases List.mem_cons.mp hp with rfl | hp'
        · simp only [List.length_reverse, List.length_cons]
          omega
        · have := splitRun_part_len sep cs (sep.length - 1) [] (by omega) p hp'
          simp only [List.length_nil] at this
          simp only [List.length_cons]
          omega
      · simp only [splitRun, hmatch, if_false] at hp h2
        have := ih 0 (c :: acc) (by omega) h2 p hp
        simp only [List.length_cons] at this ⊢
        omega

/-- When a separator occurs (`hasSub`), every part of the split is
shorter than the input by at least the separator's length. -/
theorem splitOnL_part_len {sep cs p : List Char} (hp : p ∈ splitOnL sep cs)
    (h2 : hasSub sep cs = true) : p.length + sep.length ≤ cs.length := by
  have hne := splitRun_ne_nil sep cs 0 []
  have hlen2 : 2 ≤ (splitOnL sep cs).length := by
    unfold hasSub at h2
    have h1 : (splitOnL sep cs).length ≠ 1 := by
      intro hh
      rw [hh] at h2
      simp at h2
    have : 1 ≤ (splitOnL sep cs).length := by
      cases hq : splitOnL sep cs with
      | nil => exact absurd hq hne
      | cons a l => simp
    omega
  have := splitRun_two_parts_len sep cs 0 [] (by omega) hlen2 p hp
  simpa using this

/-- Stripping whitespace never lengthens a string. -/
theorem trimL_length_le (cs : List Char) : (trimL cs).length ≤ cs.length := by
  unfold trimL
  calc ((cs.dropWhile Char.isWhitespace).reverse.dropWhile Char.isWhitespace).reverse.length
      = ((cs.dropWhile Char.isWhitespace).reverse.dropWhile Char.isWhitespace).length := by
        simp
    _ ≤ (cs.dropWhile Char.isWhitespace).reverse.length :=
        (List.dropWhile_sublist _).length_le
    _ = (cs.dropWhile Char.isWhitespace).length := by simp
    _ ≤ cs.length := (List.dropWhile_sublist _).length_le

/-- Congruence for `List.all` over pointwise-equal predicates. -/
theorem all_congr' {α : Type} (l : List α) (f g : α → Bool) (h : ∀ a ∈ l, f a = g a) :
    l.all f = l.all g := by
  induction l with
  | nil => rfl
  | cons a l ih =>
    simp only [List.all_cons]
    rw [h a (by simp), ih (fun b hb => h b (by simp [hb]))]

/-- Congruence for `List.any` over pointwise-equal predicates. -/
theorem any_congr' {α : Type} (l : List α) (f g : α → Bool) (h : ∀ a ∈ l, f a = g a) :
    l.any f = l.any g := by
  induction l with
  | nil => rfl
  | cons a l ih =>
    simp only [List.any_cons]
    rw [h a (by simp), ih (fun b hb => h b (by simp [hb]))]

/-- A positive substring test means the split has at least two parts. -/
theorem hasSub_two_parts {sep cs : List Char} (h : hasSub sep cs = true) :
    2 ≤ (splitOnL sep cs).length := by
  unfold hasSub at h
  have hne := splitRun_ne_nil sep cs 0 []
  have h1 : (splitOnL sep cs).length ≠ 1 := by
    intro hh
    rw [hh] at h
    simp at h
  have hpos : 1 ≤ (splitOnL sep cs).length := by
    cases hq : splitOnL sep cs with
    | nil => exact absurd hq hne
    | cons a l => simp
  omega

/-- Fuel irrelevance for the condition evaluator: any two fuels above
the condition's length give the same result (each recursive call drops a
separator of length at least 4, so the depth is dominated by the
length). -/
theorem evalCoreF_fuel (ctx : List (String × Value)) :
    ∀ n m (cs : List Char), cs.length < n → cs.length < m →
      evalCoreF ctx n cs = evalCoreF ctx m cs := by
  intro n
  induction n using Nat.strong_induction_on with
  | _ n IH =>
    intro m cs hn hm
    match n, m with
    | Nat.succ n', Nat.succ m' =>
      simp only [evalCoreF]
      by_cases h1 : 500 < cs.length
      · simp only [if_pos h1]
      · simp only [if_neg h1]
        by_cases h2 : (cs.any fun c => dangerousChars.contains c) = true
        · simp only [if_pos h2]
        · simp only [if_neg h2]
          cases (if cs.contains '<' && !cs.contains '>' then compareClause ctx '<' true cs
              else Option.none) with
          | some b => rfl
          | none =>
            cases (if cs.contains '>' && !cs.contains '<' then compareClause ctx '>' false cs
                else Option.none) with
            | some b => rfl
            | none =>
              by_cases ha : hasSub andSep cs = true
              · simp only [if_pos ha]
                apply all_congr'
                intro p hp
                have hb := splitOnL_part_len hp ha
                have ht := trimL_length_le p
                have hsl : andSep.length = 5 := rfl
                exact IH n' (by omega) m' (trimL p) (by omega) (by omega)
              · simp only [if_neg ha]
                by_cases ho : hasSub orSep cs = true
                · simp only [if_pos ho]
                  apply any_congr'
                  intro p hp
                  have hb := splitOnL_part_len hp ho
                  have ht := trimL_length_le p
                  have hsl : orSep.length = 4 := rfl
                  exact IH n' (by omega) m' (trimL p) (by omega) (by omega)
                · simp only [if_neg ho]

/-- The embedding's fuel is an artifact: with any fuel above the
condition's length the evaluator computes the same answer, so
`evalCondition`'s choice of `length + 1` never exhausts. -/
theorem evalCondition_eq_fuel (cond : String) (ctx : List (String × Value)) (n : Nat)
    (h : cond.data.length < n) :
    evalCondition cond ctx = evalCoreF ctx n cond.data :=
  evalCoreF_fuel ctx (cond.data.length + 1) n cond.data (by omega) h

/-! ## The claims -/

section ConcreteEvaluation

attribute [local semireducible] Rat.add Rat.mul Rat.ofScientific Rat.inv Rat.sub

/-- C1: for the age-16 personal-checking applicant `app0` the derived
facts are exactly as the claim assumes (age 16, account type
`personal_checking`), yet the AGE_VERIFICATION condition evaluates false
on that very context, no rule triggers, `require_cosigner` is absent from
`actions_required`, and the next action is `proceed_to_next_step`:
`_evaluate_condition` splits the condition at `<` before ever
considering `and`, so `float("18 and account_type != 'minor_account'")`
fails and the rule can never fire, contradicting the claim (which the
spec's end-to-end scenario and the rule's own definition support). -/
theorem c1_age_verification_rule_never_fires :
    calculate_age app0.personal_info.date_of_birth today0 = 16 ∧
    app0.account_type.value = ("personal_checking") ∧
    (okValue (evaluate_application default_rules app0 today0)).map (fun r => r.context) =
      some ctx0 ∧
    ctxFind ctx0 ("age") = some (Value.int 16) ∧
    ctxFind ctx0 ("account_type") = some (Value.str ("personal_checking")) ∧
    evalCondition ("age < 18 and account_type != 'minor_account'") ctx0 = false ∧
    (okValue (evaluate_application default_rules app0 today0)).map
        (fun r => (r.triggered_rules, r.actions_required.contains ("require_cosigner"),
          r.next_action)) =
      some ([], false, ("proceed_to_next_step")) := by
  refine ⟨by decide, by decide, by decide, by decide, by decide, by decide, by decide⟩

/-- C2 (counterexample): with an employment record whose annual income is
exactly 0, the code's truthiness guard skips the income factor entirely
(risk score 10: just the age bracket), while the claim's formula adds
+15 for an income below 15,000 (total 25). -/
theorem c2_income_zero_counterexample :
    okValue (calculate_risk_score appZ today0) = some 10 ∧
    risk_score_claim appZ today0 = 25 ∧ (10 : ℚ) ≠ 25 := by
  refine ⟨by decide, by decide, by decide⟩

/-- C2 (amended): whenever the SSN check reports flags `(seq, rep)`, the
risk score is the capped additive sum of the claim's factors, with the
income factor given by `income_contribution`: it applies only when an
employment income is present and nonzero (an income of exactly 0, like a
missing income, contributes nothing). -/
theorem c2_risk_score_amended (app : Application) (today : PyDate) (seq rep : Bool)
    (h : is_ssn_suspicious app.personal_info.ssn = Except.ok (seq, rep)) :
    calculate_risk_score app today =
      Except.ok (min 100
        (app.ai_fraud_score * 40
          + (if calculate_age app.personal_info.date_of_birth today < 21 then 10
             else if 75 < calculate_age app.personal_info.date_of_birth today then 15 else 0)
          + (if app.personal_info.citizenship ≠ ("US" : String) then 20 else 0)
          + income_contribution app.employment_info
          + (if seq || rep then 30 else 0))) := by
  simp only [calculate_risk_score, h, Bind.bind, Except.bind, pure, Except.pure, Except.ok.injEq]
  rw [min_comm]
  congr 1
  split_ifs <;> ring

/-- C2 (witness): the amended theorem applied to the concrete applicant
`app0` (clean SSN, age 16, no employment record) gives risk score 10. -/
theorem c2_risk_score_amended_witness :
    calculate_risk_score app0 today0 = Except.ok 10 := by
  have h := c2_risk_score_amended app0 today0 false false rfl
  rw [h]
  exact congrArg Except.ok (by decide)

/-- C3 (counterexample): `appBad`'s SSN makes `evaluate_application`
raise `ValueError`, the pipeline boundary catches it and forces
MANUAL_REVIEW with the generic note, but the except handlers never set
`completed_at`, so the run exits with `completed_at = None` —
contradicting the claim that every fault-caught run records a completion
time. -/
theorem c3_fault_leaves_completed_at_unset :
    (process_application default_rules (some appBad) [] credit0 today0).map
        (fun a => (a.status, a.completed_at, a.ai_notes)) =
      some (ApplicationStatus.manual_review, (Option.none : Option PyDate),
        [("Processing error - requires manual review")]) := by
  decide

/-- C3 (amended): every run that finds the application either completes
its `try` body and records the completion time, or ends in a fault
caught at the pipeline boundary, which forces MANUAL_REVIEW but leaves
`completed_at` exactly as it was when the run started (unset for a
first-time submission). -/
theorem c3_completion_time_amended (rules : List BusinessRule) (app : Application)
    (std : List Integration) (credit : Integration) (now : PyDate) :
    ∃ fin, process_application rules (some app) std credit now = some fin ∧
      (fin.completed_at = some now ∨
        (fin.status = ApplicationStatus.manual_review ∧ fin.completed_at = app.completed_at)) := by
  simp only [process_application]
  cases hr : run_pipeline rules app std credit now with
  | ok fin => exact ⟨fin, rfl, Or.inl (run_pipeline_ok_completed _ _ _ _ _ _ hr)⟩
  | error en => exact ⟨_, rfl, Or.inr ⟨rfl, run_pipeline_error_state _ _ _ _ _ _ hr⟩⟩

/-- C4: a condition longer than 500 characters, or containing any
character from the disallowed set, evaluates to false regardless of the
fact context.  (`_evaluate_condition` is total by construction in this
embedding: every internal failure path of the source is a caught
exception returning `False`, so nothing escapes the evaluator
boundary.) -/
theorem c4_condition_sanitization (cond : String) (ctx : List (String × Value))
    (h : 500 < cond.length ∨ cond.data.any (fun c => dangerousChars.contains c) = true) :
    evalCondition cond ctx = false := by
  unfold evalCondition
  rcases h with hlen | hdg
  · have hlen' : 500 < cond.data.length := hlen
    simp only [evalCoreF]
    rw [if_pos hlen']
  · by_cases hlen : 500 < cond.data.length
    · simp only [evalCoreF]
      rw [if_pos hlen]
    · simp only [evalCoreF]
      rw [if_neg hlen, if_pos hdg]

/-- C4 (witness): a condition carrying a semicolon evaluates false even
on an otherwise-satisfiable context. -/
theorem c4_condition_sanitization_witness :
    evalCondition ("risk_score < 20; import os") [(("risk_score"), Value.float 0)] = false :=
  c4_condition_sanitization _ _ (Or.inr (by decide))

/-- C5: `_determine_risk_level` is the claim's pure first-match-wins
function of the risk score and the triggered-rule list; in particular
score 75 with no fraud rule gives CRITICAL and score 40 with three
triggered rules gives MEDIUM. -/
theorem c5_risk_level_mapping :
    (∀ (context : List (String × Value)) (triggered : List String) (s : ℚ),
        ctxFind context ("risk_score") = some (Value.float s) →
        determine_risk_level context triggered = Except.ok (risk_level_claim s triggered)) ∧
    determine_risk_level [(("risk_score"), Value.float 75)] [] =
      Except.ok RiskLevel.critical ∧
    determine_risk_level [(("risk_score"), Value.float 40)] [("A"), ("B"), ("C")] =
      Except.ok RiskLevel.medium := by
  refine ⟨?_, rfl, rfl⟩
  intro context triggered s h
  simp only [determine_risk_level, h, Option.getD, valueAsNum, risk_level_claim]

/-- C5 (witness): the mapping theorem applied to a one-entry context with
score 75 and no triggered rules yields CRITICAL. -/
theorem c5_risk_level_mapping_witness :
    determine_risk_level [(("risk_score"), Value.float 75)] [] = Except.ok RiskLevel.critical := by
  have h := c5_risk_level_mapping.1 [(("risk_score"), Value.float 75)] [] 75 rfl
  rw [h]
  exact congrArg Except.ok (by decide)

/-- C6: auto-approval requires exactly one triggered action equal to
`auto_approve`: (1) a successful evaluation's `can_auto_approve` is true
iff `actions_required` is exactly `["auto_approve"]`; (2) when it is
true, the outcome step approves with the auto-approve reason; (3) when it
is false, the only way the outcome step approves is the residual credit
check, with its own reason; (4) any second triggered action makes
`can_auto_approve` false. -/
theorem c6_auto_approve_exactly_one :
    (∀ (rules : List BusinessRule) (app : Application) (today : PyDate) (r : EvalResult),
        evaluate_application rules app today = Except.ok r →
        (r.can_auto_approve = true ↔ r.actions_required = [("auto_approve")])) ∧
    (∀ (app : Application) (rr : EvalResult) (credit : Integration),
        rr.can_auto_approve = true →
        decide_outcome app rr credit =
          Except.ok
            { app with
              status := ApplicationStatus.approved
              approval_decision := some ("approved")
              decision_reason := some ("Auto-approved - low risk, all verifications passed") }) ∧
    (∀ (app : Application) (rr : EvalResult) (credit : Integration) (out : Application),
        rr.can_auto_approve = false → decide_outcome app rr credit = Except.ok out →
        out.status = ApplicationStatus.approved →
        out.decision_reason = some ("Approved after credit check")) ∧
    (∀ (rules : List BusinessRule) (app : Application) (today : PyDate) (r : EvalResult),
        evaluate_application rules app today = Except.ok r →
        2 ≤ r.actions_required.length → r.can_auto_approve = false) := by
  refine ⟨?_, ?_, ?_, ?_⟩
  · intro rules app today r h
    have hf := (eval_ok_fields rules app today r h).2.2
    rw [hf]
    exact contains_singleton _ _
  · intro app rr credit h
    simp [decide_outcome, h]
  · intro app rr credit out h hd hs
    unfold decide_outcome at hd
    rw [h] at hd
    simp only [Bool.false_eq_true, if_false] at hd
    split at hd
    · simp only [Except.ok.injEq] at hd
      subst hd
      simp at hs
    · split at hd
      · simp only [Except.ok.injEq] at hd
        subst hd
        simp at hs
      · split at hd
        · simp at hd
        · split at hd
          · simp only [Except.ok.injEq] at hd
            subst hd
            rfl
          · simp only [Except.ok.injEq] at hd
            subst hd
            simp at hs
  · intro rules app today r h hlen
    have hf := (eval_ok_fields rules app today r h).2.2
    rw [hf]
    cases hb : (r.actions_required.contains ("auto_approve") && r.actions_required.length == 1) with
    | false => rfl
    | true =>
      have hsing := (contains_singleton _ _).mp hb
      rw [hsing] at hlen
      simp at hlen

/-- C6 (witness): each part of the theorem at concrete inputs — the
no-rule result `r0app0`, the single-auto-action result `rrAuto`, the
residual credit approval `outM`, and the two-action result `r2appM`. -/
theorem c6_auto_approve_exactly_one_witness :
    (r0app0.can_auto_approve = true ↔ r0app0.actions_required = [("auto_approve")]) ∧
    decide_outcome app0 rrAuto credit0 =
      Except.ok
        { app0 with
          status := ApplicationStatus.approved
          approval_decision := some ("approved")
          decision_reason := some ("Auto-approved - low risk, all verifications passed") } ∧
    outM.decision_reason = some ("Approved after credit check") ∧
    r2appM.can_auto_approve = false := by
  refine ⟨?_, ?_, ?_, ?_⟩
  · exact c6_auto_approve_exactly_one.1 default_rules app0 today0 r0app0
      (okValue_some.mp (by decide))
  · exact c6_auto_approve_exactly_one.2.1 app0 rrAuto credit0 rfl
  · exact c6_auto_approve_exactly_one.2.2.1 app0 rrLow credit0 outM rfl rfl rfl
  · exact c6_auto_approve_exactly_one.2.2.2 default_rules appM today0 r2appM
      (okValue_some.mp (by decide)) (by decide)

/-- C7 (counterexample): for the SSN "ABCDEFGHI" the cleaned string has
9 characters, so the claim asserts the function reports
`sequential = repetitive = false`; instead `int(d)` raises `ValueError`
and nothing is reported. -/
theorem c7_nondigit_ssn_counterexample :
    (ssnCleanChars ("ABCDEFGHI")).length = 9 ∧
    okValue (is_ssn_suspicious ("ABCDEFGHI")) = Option.none ∧
    sequential_claim ("ABCDEFGHI") = false ∧ repetitive_claim ("ABCDEFGHI") = false := by
  refine ⟨by decide, by decide, by decide, by decide⟩

/-- C7 (amended): for every SSN whose cleaned form, when 9 characters
long, consists solely of digits, `is_ssn_suspicious` reports exactly the
claim's flags (sequential: 9 digits with at least 5 of the 8 consecutive
pairs each +1; repetitive: all identical or three repetitions of a
3-digit block); a 9-character cleaned string containing a non-digit
raises `ValueError` instead of reporting.  In particular `111111111`
gives `(false, true)` and `123456789` gives `(true, false)`. -/
theorem c7_ssn_flags_amended :
    (∀ ssn : String,
        ((ssnCleanChars ssn).length = 9 → (ssnCleanChars ssn).all Char.isDigit = true) →
        is_ssn_suspicious ssn = Except.ok (sequential_claim ssn, repetitive_claim ssn)) ∧
    is_ssn_suspicious ("111111111") = Except.ok (false, true) ∧
    is_ssn_suspicious ("123456789") = Except.ok (true, false) := by
  refine ⟨?_, rfl, rfl⟩
  intro ssn h
  by_cases h9 : (ssnCleanChars ssn).length = 9
  · have hd := h h9
    simp only [is_ssn_suspicious, sequential_claim, repetitive_claim, h9, hd]
    simp [decide_eq_decide, h9, hd]
  · have h9' : ((ssnCleanChars ssn).length == 9) = false := by simpa using h9
    simp only [is_ssn_suspicious, sequential_claim, repetitive_claim, h9', Bool.false_eq_true,
      if_false]
    have hs : (decide ((ssnCleanChars ssn).length = 9 ∧
        (ssnCleanChars ssn).all Char.isDigit = true ∧
        5 ≤ countStep (List.map (fun c => c.toNat - 48) (ssnCleanChars ssn)))) = false := by
      simp [h9]
    rw [hs]

/-- C7 (witness): the amended theorem applied to the well-formed SSN of
the concrete applicant. -/
theorem c7_ssn_flags_amended_witness :
    is_ssn_suspicious ("587-10-3924") =
      Except.ok (sequential_claim ("587-10-3924"), repetitive_claim ("587-10-3924")) :=
  c7_ssn_flags_amended.1 ("587-10-3924") (by decide)

/-- C8: rule evaluation order and filtering — (1) the loop over the
sorted rules returns exactly the ids and the pointwise actions of the
enabled rules whose condition holds, in visiting order; (2) the visiting
order is descending in priority; (3) it is stable: each priority class
keeps its insertion order; (4) a successful `evaluate_application`
returns exactly those lists for its own context. -/
theorem c8_rule_order_and_filtering :
    (∀ (ctx : List (String × Value)) (rules : List BusinessRule),
        evalLoop ctx (sortRulesDesc rules) =
          (((sortRulesDesc rules).filter
              (fun x => x.enabled && evalCondition x.condition ctx)).map (fun x => x.rule_id),
           ((sortRulesDesc rules).filter
              (fun x => x.enabled && evalCondition x.condition ctx)).map (fun x => x.action))) ∧
    (∀ rules : List BusinessRule,
        List.Pairwise (fun a b => b.priority ≤ a.priority) (sortRulesDesc rules)) ∧
    (∀ (rules : List BusinessRule) (p : Int),
        (sortRulesDesc rules).filter (fun x => x.priority == p) =
          rules.filter (fun x => x.priority == p)) ∧
    (∀ (rules : List BusinessRule) (app : Application) (today : PyDate) (r : EvalResult),
        evaluate_application rules app today = Except.ok r →
        r.triggered_rules =
          ((sortRulesDesc rules).filter
            (fun x => x.enabled && evalCondition x.condition r.context)).map (fun x => x.rule_id) ∧
        r.actions_required =
          ((sortRulesDesc rules).filter
            (fun x => x.enabled && evalCondition x.condition r.context)).map (fun x => x.action)) := by
  refine ⟨?_, sortRulesDesc_pairwise, sortRulesDesc_filter, ?_⟩
  · intro ctx rules
    exact evalLoop_eq ctx (sortRulesDesc rules)
  · intro rules app today r h
    have hf := eval_ok_fields rules app today r h
    refine ⟨?_, ?_⟩
    · rw [hf.1, evalLoop_eq]
    · rw [hf.2.1, evalLoop_eq]

/-- C8 (witness): the evaluation-order theorem applied to the default
rules and the concrete applicant `appM`, whose run triggers
`FOREIGN_ADDRESS` (priority 85) before `HIGH_INCOME_VERIFICATION`
(priority 80). -/
theorem c8_rule_order_and_filtering_witness :
    r2appM.triggered_rules =
      ((sortRulesDesc default_rules).filter
        (fun x => x.enabled && evalCondition x.condition r2appM.context)).map
          (fun x => x.rule_id) ∧
    r2appM.actions_required =
      ((sortRulesDesc default_rules).filter
        (fun x => x.enabled && evalCondition x.condition r2appM.context)).map
          (fun x => x.action) :=
  c8_rule_order_and_filtering.2.2.2 default_rules appM today0 r2appM (okValue_some.mp (by decide))

/-- C10: the fact `all_verifications_passed` is
`len(application.integrations) > 0` — it holds exactly when at least one
integration record is attached, never consulting any integration's
status; concretely, `appF` (whose every integration has status
`failed`) still gets the fact `True`. -/
theorem c10_all_verifications_passed :
    (∀ (app : Application) (age : Int) (seq rep : Bool) (risk : ℚ),
        ctxFind (build_context app age seq rep risk) ("all_verifications_passed") =
          some (Value.bool (decide (0 < app.integrations.length)))) ∧
    appF.integrations.all (fun i => i.status == ("failed")) = true ∧
    appF.integrations ≠ [] ∧
    (okValue (evaluate_application default_rules appF today0)).map
        (fun r => ctxFind r.context ("all_verifications_passed")) =
      some (some (Value.bool true)) := by
  refine ⟨fun _ _ _ _ _ => rfl, by decide, by decide, by decide⟩

end ConcreteEvaluation

end Bwa

